import Mathlib

/-!
Verification development for the ritmex-bot trading core.

Numbers that appear as JavaScript floating-point values in the source are
modelled as rationals (ℚ); millisecond timestamps (values of Date.now())
are modelled as integers (ℤ).  Stateful classes are modelled as explicit
state-passing functions on structures mirroring the class fields.
-/

namespace RitmexBot

/-- The amount epsilon from the engines (src/core/maker-engine.ts and
src/core/depth-imbalance-engine.ts): "const EPS = 1e-5". -/
def EPS : ℚ := 1 / 100000

/-- Order side, from the "BUY" | "SELL" string union used throughout
the source. -/
inductive Side where
  | BUY
  | SELL
deriving DecidableEq, Repr

namespace RateLimit

/-- The "normal" | "degraded" | "paused" union of
src/core/lib/rate-limit.ts. -/
inductive RLState where
  | normal
  | degraded
  | paused
deriving DecidableEq, Repr

/-- The "run" | "skip" | "paused" decision returned by beforeCycle. -/
inductive RateLimitDecision where
  | run
  | skip
  | paused
deriving DecidableEq, Repr

/-- Constructor parameters of RateLimitController: base cycle interval and
the pause / recovery windows (defaults 30 000 ms and 60 000 ms). -/
structure Config where
  baseInterval : ℤ
  pauseMs : ℤ
  recoveryMs : ℤ
deriving DecidableEq, Repr

/-- The mutable fields of RateLimitController
(src/core/lib/rate-limit.ts, lines 11-17). -/
structure St where
  state : RLState
  pausedUntil : Option ℤ
  lastCycleAt : ℤ
  lastRateLimitAt : ℤ
  entriesSuppressed : Bool
deriving DecidableEq, Repr

/-- Initial field values of a fresh RateLimitController. -/
def initialSt : St :=
  { state := RLState.normal
    pausedUntil := none
    lastCycleAt := 0
    lastRateLimitAt := 0
    entriesSuppressed := false }

/-- currentInterval (src/core/lib/rate-limit.ts, lines 112-120):
2x the base interval while degraded or paused, 1x while normal. -/
def currentInterval (cfg : Config) (s : St) : ℤ :=
  match s.state with
  | RLState.degraded => cfg.baseInterval * 2
  | RLState.paused => cfg.baseInterval * 2
  | RLState.normal => cfg.baseInterval

/-- shouldBlockEntries (lines 28-30): suppressed or paused. -/
def shouldBlockEntries (s : St) : Bool :=
  s.entriesSuppressed || decide (s.state = RLState.paused)

/-- The tail of beforeCycle after the paused-state handling (lines 57-62):
compare elapsed time against the current interval. -/
def beforeCycleTail (cfg : Config) (now : ℤ) (s : St) : RateLimitDecision × St :=
  if now - s.lastCycleAt < currentInterval cfg s then
    (RateLimitDecision.skip, s)
  else
    (RateLimitDecision.run, { s with lastCycleAt := now })

/-- beforeCycle (lines 44-63).  If paused and the pause window has elapsed,
demote to degraded and fall through to the interval check; if still paused,
stamp lastCycleAt and report paused. -/
def beforeCycle (cfg : Config) (now : ℤ) (s : St) : RateLimitDecision × St :=
  if s.state = RLState.paused then
    match s.pausedUntil with
    | some t =>
      if t ≤ now then
        beforeCycleTail cfg now { s with state := RLState.degraded, pausedUntil := none }
      else
        (RateLimitDecision.paused, { s with lastCycleAt := now })
    | none => (RateLimitDecision.paused, { s with lastCycleAt := now })
  else
    beforeCycleTail cfg now s

/-- registerRateLimit (lines 65-94).  Always stamps lastRateLimitAt;
normal → degraded (also stamps lastCycleAt), degraded → paused with a pause
window, paused → extend the pause window; always suppresses entries. -/
def registerRateLimit (cfg : Config) (now : ℤ) (s : St) : St :=
  let s1 := { s with lastRateLimitAt := now }
  match s1.state with
  | RLState.normal =>
    { s1 with state := RLState.degraded, lastCycleAt := now, entriesSuppressed := true }
  | RLState.degraded =>
    { s1 with
        state := RLState.paused
        pausedUntil := some (now + cfg.pauseMs)
        entriesSuppressed := true }
  | RLState.paused =>
    { s1 with pausedUntil := some (now + cfg.pauseMs), entriesSuppressed := true }

/-- onCycleComplete (lines 96-110).  With no overload this cycle: demote
degraded → normal once the recovery window has elapsed since the last
recorded overload (clearing suppression and the overload stamp); afterwards,
clear a stale suppression in the normal state with no recorded overload. -/
def onCycleComplete (cfg : Config) (now : ℤ) (hadRateLimit : Bool) (s : St) : St :=
  if hadRateLimit then s
  else
    let s1 :=
      if s.state = RLState.degraded ∧ 0 < s.lastRateLimitAt ∧
          cfg.recoveryMs ≤ now - s.lastRateLimitAt then
        { s with state := RLState.normal, entriesSuppressed := false, lastRateLimitAt := 0 }
      else s
    if s1.state = RLState.normal ∧ s1.entriesSuppressed = true ∧ s1.lastRateLimitAt = 0 then
      { s1 with entriesSuppressed := false }
    else s1

/-- One public operation of the controller, with the Date.now() value it
observes. -/
inductive Op where
  | beforeCycle (now : ℤ)
  | registerRateLimit (now : ℤ)
  | onCycleComplete (now : ℤ) (hadRateLimit : Bool)

/-- State transition of a single public operation. -/
def applyOp (cfg : Config) (op : Op) (s : St) : St :=
  match op with
  | Op.beforeCycle now => (beforeCycle cfg now s).2
  | Op.registerRateLimit now => registerRateLimit cfg now s
  | Op.onCycleComplete now had => onCycleComplete cfg now had s

end RateLimit

namespace DepthImbalance

/-- checkEntryCondition (src/core/depth-imbalance-engine.ts, lines 320-368):
returns the (side, quantity) of the market entry submitted to the exchange,
or none when no entry is attempted.  Condition 1: at least one first-level
quantity reaches minDepthQty.  Condition 2: the larger quantity is at least
imbalanceFactor (config field name: the imbalance-ratio setting) times the
smaller.  Direction: more bids → BUY, otherwise SELL.  The submitted
quantity is the configured trade amount (marketEntry, lines 435-453). -/
def checkEntryCondition (minDepthQty imbalanceFactor tradeAmount bidQty askQty : ℚ) :
    Option (Side × ℚ) :=
  if bidQty < minDepthQty ∧ askQty < minDepthQty then none
  else if max bidQty askQty / min bidQty askQty < imbalanceFactor then none
  else some (if askQty < bidQty then Side.BUY else Side.SELL, tradeAmount)

/-- The entry-relevant part of DepthImbalanceEngine.tick
(lines 246-294): the tick aborts when either first-level quantity is
non-positive, calls checkEntryCondition only when the position is flat
(|positionAmt| < EPS), and otherwise follows the exit path (no entry). -/
def tickEntryDecision (minDepthQty imbalanceFactor tradeAmount positionAmt bidQty askQty : ℚ) :
    Option (Side × ℚ) :=
  if bidQty ≤ 0 ∨ askQty ≤ 0 then none
  else if |positionAmt| < EPS then
    checkEntryCondition minDepthQty imbalanceFactor tradeAmount bidQty askQty
  else none

/-- checkStopLoss (src/core/depth-imbalance-engine.ts, lines 415-433, and
the identical control flow in src/unnamed/part_001, lines 458-476, which
uses the dynamic currentLossLimit as lossLimit): returns whether marketExit
is invoked.  pnl stands for the value computePositionPnl(position, topBid,
topAsk) computed by the engine from the current top-of-book. -/
def checkStopLoss (lossLimit positionAmt pnl : ℚ) : Bool :=
  if |positionAmt| < EPS then false
  else decide (pnl ≤ -lossLimit)

/-- Result of one createOrder call inside the marketEntry retry loop of
src/unnamed/part_001: successful fill, insufficient-margin rejection, or
any other error. -/
inductive EntryOutcome where
  | success
  | marginError
  | otherError
deriving DecidableEq, Repr

/-- Final result of the marketEntry retry loop of src/unnamed/part_001
(lines 478-568).  Each constructor carries the value of currentLossLimit
when the loop ends; ok also carries the successfully submitted amount. -/
inductive EntryResult where
  | ok (filledAmount lossLimit : ℚ)
  | errBelowMin (lossLimit : ℚ)
  | errMargin (lossLimit : ℚ)
  | errOther (lossLimit : ℚ)
  | errExhausted (lossLimit : ℚ)
  | pending (lossLimit : ℚ)
deriving DecidableEq, Repr

/-- The while loop of DepthImbalanceEngine.marketEntry
(src/unnamed/part_001, lines 478-568), driven by the script of createOrder
outcomes.  Returns the list of amounts actually submitted to createOrder
(in order) together with the final result.  A margin rejection halves both
the attempted amount and the loss limit, then retries only while the
attempt count stays below maxAttempts and the halved amount stays at or
above minAmt; any other error aborts at once.  pending marks a script that
ran out before the loop ended (never reached with a long enough script).
The attempt-budget and below-floor guards precede the createOrder call and
do not inspect the script, so they are repeated in each script branch. -/
def marketEntryGo (minAmt : ℚ) (maxAttempts : ℕ) (attemptAmount lossLimit : ℚ)
    (attempts : ℕ) : List EntryOutcome → List ℚ × EntryResult
  | [] =>
    if attempts < maxAttempts then
      if attemptAmount < minAmt then ([], EntryResult.errBelowMin lossLimit)
      else ([], EntryResult.pending lossLimit)
    else ([], EntryResult.errExhausted lossLimit)
  | EntryOutcome.success :: _ =>
    if attempts < maxAttempts then
      if attemptAmount < minAmt then ([], EntryResult.errBelowMin lossLimit)
      else ([attemptAmount], EntryResult.ok attemptAmount lossLimit)
    else ([], EntryResult.errExhausted lossLimit)
  | EntryOutcome.otherError :: _ =>
    if attempts < maxAttempts then
      if attemptAmount < minAmt then ([], EntryResult.errBelowMin lossLimit)
      else ([attemptAmount], EntryResult.errOther lossLimit)
    else ([], EntryResult.errExhausted lossLimit)
  | EntryOutcome.marginError :: rest =>
    if attempts < maxAttempts then
      if attemptAmount < minAmt then ([], EntryResult.errBelowMin lossLimit)
      else if attempts + 1 < maxAttempts ∧ minAmt ≤ attemptAmount / 2 then
        let r := marketEntryGo minAmt maxAttempts (attemptAmount / 2) (lossLimit / 2)
          (attempts + 1) rest
        (attemptAmount :: r.1, r.2)
      else ([attemptAmount], EntryResult.errMargin (lossLimit / 2))
    else ([], EntryResult.errExhausted lossLimit)

/-- DepthImbalanceEngine.marketEntry of src/unnamed/part_001, started from
a fresh engine: currentTradeAmount = config.tradeAmount, minTradeAmount =
config.tradeAmount / 128, maxRetryAttempts = 10, currentLossLimit =
config.lossLimit (constructor, lines 121-132). -/
def marketEntry (tradeAmount lossLimit : ℚ) (outcomes : List EntryOutcome) :
    List ℚ × EntryResult :=
  marketEntryGo (tradeAmount / 128) 10 tradeAmount lossLimit 0 outcomes

end DepthImbalance

/-- A desired order as recomputed every maker tick
(src/core/maker-engine.ts, lines 59-64). -/
structure DesiredOrder where
  side : Side
  price : ℚ
  amount : ℚ
  reduceOnly : Bool
deriving DecidableEq, Repr

namespace Maker

/-- Modelled from the spec: the function roundDownToTick of
src/utils/math is imported by src/core/maker-engine.ts but its source file
is not in the repository snapshot.  The spec describes the desired prices
as "both tick-rounded, rounded down", so the price is rounded down to the
nearest multiple of the price tick. -/
def roundDownToTick (price priceTick : ℚ) : ℚ :=
  (Rat.floor (price / priceTick) : ℚ) * priceTick

/-- The desired-order computation of MakerEngine.tick
(src/core/maker-engine.ts, lines 375-423), given a present top-of-book.
canEnter is !rateLimit.shouldBlockEntries().  Flat and allowed to enter:
a BUY quote below the bid and a SELL quote above the ask, both for the
fixed trade amount; flat and blocked: no orders; positioned: one
reduce-only order closing the whole position. -/
def tickDesiredOrders (bidOffset askOffset priceTick tradeAmount : ℚ)
    (rl : RateLimit.St) (topBid topAsk positionAmt : ℚ) : List DesiredOrder :=
  let bidPrice := roundDownToTick (topBid - bidOffset) priceTick
  let askPrice := roundDownToTick (topAsk + askOffset) priceTick
  let canEnter := !(RateLimit.shouldBlockEntries rl)
  if |positionAmt| < EPS then
    if canEnter then
      [{ side := Side.BUY, price := bidPrice, amount := tradeAmount, reduceOnly := false },
       { side := Side.SELL, price := askPrice, amount := tradeAmount, reduceOnly := false }]
    else []
  else
    let closeSide := if 0 < positionAmt then Side.SELL else Side.BUY
    let closePrice := if 0 < positionAmt then askPrice else bidPrice
    [{ side := closeSide, price := closePrice, amount := |positionAmt|, reduceOnly := true }]

end Maker

namespace OrderPlan

/-- An open order, restricted to the fields the order planner consults. -/
structure OpenOrder where
  orderId : ℕ
  side : Side
  price : ℚ
  reduceOnly : Bool
deriving DecidableEq, Repr

/-- Whether an open order satisfies a desired entry: same side, same
reduce-only flag, and price within the tolerance. -/
def satisfies (tolerance : ℚ) (o : OpenOrder) (d : DesiredOrder) : Bool :=
  decide (o.side = d.side) && decide (o.reduceOnly = d.reduceOnly) &&
    decide (|o.price - d.price| ≤ tolerance)

/-- Modelled from the spec: makeOrderPlan of src/core/lib/order-plan is
imported by src/core/maker-engine.ts but its source file is not in the
repository snapshot.  Following spec section 4.3: a desired entry with a
matching open order (same side and reduce-only flag) within the price
tolerance is kept; otherwise the stale order is scheduled for cancellation
and the desired entry for placement; an open order with no matching desired
entry is scheduled for cancellation.  Output: (cancel-set, place-set). -/
def makeOrderPlan (openOrders : List OpenOrder) (targets : List DesiredOrder)
    (tolerance : ℚ) : List OpenOrder × List DesiredOrder :=
  (openOrders.filter (fun o => !(targets.any (fun d => satisfies tolerance o d))),
   targets.filter (fun d => !(openOrders.any (fun o => satisfies tolerance o d))))

end OrderPlan

namespace Stats

/-- The TradingStats record of src/unnamed/part_000 (both revisions of the
trading-stats module declare the identical interface). -/
structure TradingStats where
  makerOrderCount : ℕ
  takerOrderCount : ℕ
  totalFees : ℚ
  totalPnl : ℚ
  totalVolume : ℚ
  pointsRate : ℚ
  startTime : ℤ
deriving DecidableEq, Repr

/-- HourlyStats extends TradingStats with the window start time. -/
structure HourlyStats extends TradingStats where
  hourStartTime : ℤ
deriving DecidableEq, Repr

/-- The pair of running records held by each engine. -/
structure TradingStatsSummary where
  total : TradingStats
  hourly : HourlyStats
deriving DecidableEq, Repr

/-- calculatePointsRate of the team-bonus revision of the trading-stats
module (src/unnamed/part_000, lines 118-135):
(fees - pnl) / ((volume / 2) * teamBonus) * 10000, zero on non-positive
volume.  teamBonus is the TEAM_BONUS_RATE environment value, passed here
as an argument; its default is 1.1. -/
def calculatePointsRateTeamBonus (teamBonus fees pnl volume : ℚ) : ℚ :=
  if volume ≤ 0 then 0
  else (fees - pnl) / ((volume / 2) * teamBonus) * 10000

/-- calculatePointsRate of the unadjusted revision of the trading-stats
module (src/unnamed/part_000, lines 265-271):
(fees + |pnl| when pnl < 0, else fees) / volume * 10000, zero on
non-positive volume. -/
def calculatePointsRatePlain (fees pnl volume : ℚ) : ℚ :=
  if volume ≤ 0 then 0
  else (fees + (if pnl < 0 then |pnl| else 0)) / volume * 10000

/-- The TradeData record built by handleRealTrade from a trade-execution
push (src/core/maker-engine.ts, lines 743-778). -/
structure TradeData where
  isMaker : Bool
  commission : ℚ
  realizedPnl : ℚ
  volume : ℚ
  price : ℚ
  qty : ℚ
  timestamp : ℤ
deriving DecidableEq, Repr

/-- updateStatsWithRealTrade (src/unnamed/part_000): bump the maker or
taker count, accumulate fees, realized PnL and volume, and recompute the
points rate from the running totals (using the unadjusted formula of the
second revision). -/
def updateStatsWithRealTrade (stats : TradingStats) (t : TradeData) : TradingStats :=
  let stats1 :=
    if t.isMaker then { stats with makerOrderCount := stats.makerOrderCount + 1 }
    else { stats with takerOrderCount := stats.takerOrderCount + 1 }
  let totalFees := stats1.totalFees + t.commission
  let totalPnl := stats1.totalPnl + t.realizedPnl
  let totalVolume := stats1.totalVolume + t.volume
  { stats1 with
      totalFees := totalFees
      totalPnl := totalPnl
      totalVolume := totalVolume
      pointsRate := calculatePointsRatePlain totalFees totalPnl totalVolume }

/-- updateStatsWithRealTrade applied to the hourly record: the window start
field is untouched. -/
def updateHourlyWithRealTrade (h : HourlyStats) (t : TradeData) : HourlyStats :=
  { toTradingStats := updateStatsWithRealTrade h.toTradingStats t
    hourStartTime := h.hourStartTime }

/-- A trade-execution event as delivered by the exchange adapter
(src/unnamed/part_000, TradeExecutionData). -/
structure TradeExecutionData where
  symbol : String
  orderId : ℕ
  tradeId : ℕ
  price : ℚ
  qty : ℚ
  quoteQty : ℚ
  commission : ℚ
  isMaker : Bool
  realizedPnl : ℚ
  timestamp : ℤ
deriving DecidableEq, Repr

/-- The conversion performed by handleRealTrade
(src/core/maker-engine.ts, lines 743-754): commission taken as an absolute
value, quote notional used as volume. -/
def toTradeData (td : TradeExecutionData) : TradeData :=
  { isMaker := td.isMaker
    commission := |td.commission|
    realizedPnl := td.realizedPnl
    volume := td.quoteQty
    price := td.price
    qty := td.qty
    timestamp := td.timestamp }

/-- The statistics effect of handleRealTrade: fold the trade into both the
total and the hourly record. -/
def handleRealTrade (s : TradingStatsSummary) (td : TradeExecutionData) :
    TradingStatsSummary :=
  { total := updateStatsWithRealTrade s.total (toTradeData td)
    hourly := updateHourlyWithRealTrade s.hourly (toTradeData td) }

/-- The watchTrades handler installed by MakerEngine.bootstrap
(src/core/maker-engine.ts, lines 276-290) and identically by
DepthImbalanceEngine.bootstrap (src/unnamed/part_001, lines 244-256):
the trade is folded into the statistics only when its symbol equals the
engine's configured symbol. -/
def onTradeEvent (cfgSymbol : String) (s : TradingStatsSummary)
    (td : TradeExecutionData) : TradingStatsSummary :=
  if td.symbol = cfgSymbol then handleRealTrade s td else s

/-- One hour in milliseconds (src/unnamed/part_000, lines 168-172). -/
def oneHour : ℤ := 60 * 60 * 1000

/-- shouldResetHourlyStats (src/unnamed/part_000, lines 168-172):
at least one hour has elapsed since the hourly window start. -/
def shouldResetHourlyStats (now : ℤ) (h : HourlyStats) : Bool :=
  decide (oneHour ≤ now - h.hourStartTime)

/-- resetHourlyStats (src/unnamed/part_000, lines 174-194): zero all six
trading fields and start a fresh window at now.  The startTime field is
not touched by the source reset. -/
def resetHourlyStats (now : ℤ) (h : HourlyStats) : HourlyStats :=
  { toTradingStats :=
      { h.toTradingStats with
          makerOrderCount := 0
          takerOrderCount := 0
          totalFees := 0
          totalPnl := 0
          totalVolume := 0
          pointsRate := 0 }
    hourStartTime := now }

/-- Modelled from the spec: the statistics effect of a snapshot read
(MakerEngine.getSnapshot, src/core/maker-engine.ts, lines 176-191).  The
engines import a three-argument resetHourlyStats variant from
src/core/trading-stats whose file is not in the repository snapshot; per
the spec, the extra arguments only feed the export of the pre-reset hourly
values, so the read is modelled with the reset of src/unnamed/part_000
plus the exported pre-reset copy.  Returns (total record after the read,
hourly record after the read, exported pre-reset hourly values if a reset
happened). -/
def getSnapshotStats (now : ℤ) (total : TradingStats) (hourly : HourlyStats) :
    TradingStats × HourlyStats × Option HourlyStats :=
  if shouldResetHourlyStats now hourly then
    (total, resetHourlyStats now hourly, some hourly)
  else
    (total, hourly, none)

end Stats

/-! ## Theorems for the claims -/

open RateLimit DepthImbalance Maker OrderPlan Stats

/-- Claim C1: for the RateLimitController, registerRateLimit moves
normal → degraded with the effective cycle interval doubled, moves
degraded → paused arming pausedUntil = now + pauseMs, and while paused
extends pausedUntil to now + pauseMs; once pausedUntil has elapsed the
next beforeCycle moves the state to degraded; and no single operation ever
moves the state from paused directly to normal. -/
theorem claim_C1 (cfg : Config) (s : St) (now : ℤ) :
    (s.state = RLState.normal →
      (registerRateLimit cfg now s).state = RLState.degraded ∧
        currentInterval cfg (registerRateLimit cfg now s) = cfg.baseInterval * 2) ∧
    (s.state = RLState.degraded →
      (registerRateLimit cfg now s).state = RLState.paused ∧
        (registerRateLimit cfg now s).pausedUntil = some (now + cfg.pauseMs)) ∧
    (s.state = RLState.paused →
      (registerRateLimit cfg now s).state = RLState.paused ∧
        (registerRateLimit cfg now s).pausedUntil = some (now + cfg.pauseMs)) ∧
    (∀ t : ℤ, s.state = RLState.paused → s.pausedUntil = some t → t ≤ now →
      (beforeCycle cfg now s).2.state = RLState.degraded) ∧
    (∀ op : Op, s.state = RLState.paused →
      (applyOp cfg op s).state ≠ RLState.normal) := by
  refine ⟨?_, ?_, ?_, ?_, ?_⟩
  · intro h
    simp [registerRateLimit, currentInterval, h]
  · intro h
    simp [registerRateLimit, h]
  · intro h
    simp [registerRateLimit, h]
  · intro t h hpu ht
    simp only [beforeCycle, h, if_true, hpu, beforeCycleTail]
    simp only [if_pos ht]
    split <;> simp
  · intro op h
    cases op with
    | beforeCycle n =>
      simp only [applyOp, beforeCycle, h, if_true]
      cases hpu : s.pausedUntil with
      | none => simp [h]
      | some t =>
        by_cases hle : t ≤ n
        · simp only [if_pos hle, beforeCycleTail]
          split <;> simp
        · simp [if_neg hle, h]
    | registerRateLimit n =>
      simp [applyOp, registerRateLimit, h]
    | onCycleComplete n had =>
      simp only [applyOp, onCycleComplete]
      split
      · simp [h]
      · simp only [h]
        split
        · rename_i hcond
          simp [h] at hcond
        · split
          · rename_i hcond
            simp [h] at hcond
          · simp [h]

/-- Witness for claim C1: the theorem applied at a concrete configuration
and concrete states in each of the three rate-limit states. -/
theorem claim_C1_witness :
    ((registerRateLimit ⟨1000, 30000, 60000⟩ 5 initialSt).state = RLState.degraded ∧
      currentInterval ⟨1000, 30000, 60000⟩ (registerRateLimit ⟨1000, 30000, 60000⟩ 5 initialSt)
        = 1000 * 2) ∧
    ((registerRateLimit ⟨1000, 30000, 60000⟩ 7
        { initialSt with state := RLState.degraded }).state = RLState.paused ∧
      (registerRateLimit ⟨1000, 30000, 60000⟩ 7
        { initialSt with state := RLState.degraded }).pausedUntil = some (7 + 30000)) ∧
    ((registerRateLimit ⟨1000, 30000, 60000⟩ 9
        { initialSt with state := RLState.paused, pausedUntil := some 8 }).state
        = RLState.paused ∧
      (registerRateLimit ⟨1000, 30000, 60000⟩ 9
        { initialSt with state := RLState.paused, pausedUntil := some 8 }).pausedUntil
        = some (9 + 30000)) ∧
    ((beforeCycle ⟨1000, 30000, 60000⟩ 100
        { initialSt with state := RLState.paused, pausedUntil := some 8 }).2.state
        = RLState.degraded) ∧
    ((applyOp ⟨1000, 30000, 60000⟩ (Op.onCycleComplete 100 false)
        { initialSt with state := RLState.paused, pausedUntil := some 8 }).state
        ≠ RLState.normal) := by
  refine ⟨(claim_C1 ⟨1000, 30000, 60000⟩ initialSt 5).1 rfl,
    (claim_C1 ⟨1000, 30000, 60000⟩ { initialSt with state := RLState.degraded } 7).2.1 rfl,
    (claim_C1 ⟨1000, 30000, 60000⟩
      { initialSt with state := RLState.paused, pausedUntil := some 8 } 9).2.2.1 rfl,
    (claim_C1 ⟨1000, 30000, 60000⟩
      { initialSt with state := RLState.paused, pausedUntil := some 8 } 100).2.2.2.1 8 rfl rfl
      (by norm_num),
    (claim_C1 ⟨1000, 30000, 60000⟩
      { initialSt with state := RLState.paused, pausedUntil := some 8 } 100).2.2.2.2
      (Op.onCycleComplete 100 false) rfl⟩

/-- Claim C6: onCycleComplete(hadRateLimit) demotes degraded → normal
(re-allowing entries) exactly when hadRateLimit is false, the state is
degraded, a rate limit is recorded, and the recovery window has elapsed;
when hadRateLimit is false, the state is normal, entries are suppressed
and no rate-limit time is recorded, the suppression is cleared; and in
every other case the call leaves the state unchanged. -/
theorem claim_C6 (cfg : Config) (s : St) (now : ℤ) (had : Bool) :
    ((s.state = RLState.degraded ∧ (onCycleComplete cfg now had s).state = RLState.normal) ↔
      (had = false ∧ s.state = RLState.degraded ∧ 0 < s.lastRateLimitAt ∧
        cfg.recoveryMs ≤ now - s.lastRateLimitAt)) ∧
    ((had = false ∧ s.state = RLState.degraded ∧ 0 < s.lastRateLimitAt ∧
        cfg.recoveryMs ≤ now - s.lastRateLimitAt) →
      onCycleComplete cfg now had s =
        { s with state := RLState.normal, entriesSuppressed := false, lastRateLimitAt := 0 }) ∧
    ((had = false ∧ s.state = RLState.normal ∧ s.entriesSuppressed = true ∧
        s.lastRateLimitAt = 0) →
      onCycleComplete cfg now had s = { s with entriesSuppressed := false }) ∧
    (¬(had = false ∧ s.state = RLState.degraded ∧ 0 < s.lastRateLimitAt ∧
        cfg.recoveryMs ≤ now - s.lastRateLimitAt) →
      ¬(had = false ∧ s.state = RLState.normal ∧ s.entriesSuppressed = true ∧
        s.lastRateLimitAt = 0) →
      onCycleComplete cfg now had s = s) := by
  cases had with
  | true =>
    refine ⟨?_, ?_, ?_, ?_⟩
    · simp only [onCycleComplete, if_true]
      constructor
      · rintro ⟨h1, h2⟩
        rw [h1] at h2
        exact absurd h2 (by simp)
      · rintro ⟨h, -⟩
        exact absurd h (by simp)
    · rintro ⟨h, -⟩
      exact absurd h (by simp)
    · rintro ⟨h, -⟩
      exact absurd h (by simp)
    · intro _ _
      simp [onCycleComplete]
  | false =>
    by_cases hA : s.state = RLState.degraded ∧ 0 < s.lastRateLimitAt ∧
        cfg.recoveryMs ≤ now - s.lastRateLimitAt
    · have hstep : onCycleComplete cfg now false s =
          { s with state := RLState.normal, entriesSuppressed := false, lastRateLimitAt := 0 } := by
        simp only [onCycleComplete, Bool.false_eq_true, if_false]
        rw [if_pos hA]
        simp
      refine ⟨?_, fun _ => hstep, ?_, ?_⟩
      · simp [hstep, hA.1, hA.2.1, hA.2.2]
      · rintro ⟨-, hnorm, -, -⟩
        rw [hA.1] at hnorm
        exact absurd hnorm (by simp)
      · intro hcon
        exact absurd ⟨rfl, hA.1, hA.2.1, hA.2.2⟩ hcon
    · have hstep1 : onCycleComplete cfg now false s =
          (if s.state = RLState.normal ∧ s.entriesSuppressed = true ∧ s.lastRateLimitAt = 0
            then { s with entriesSuppressed := false } else s) := by
        simp only [onCycleComplete, Bool.false_eq_true, if_false]
        rw [if_neg hA]
      by_cases hB : s.state = RLState.normal ∧ s.entriesSuppressed = true ∧
          s.lastRateLimitAt = 0
      · have hstep : onCycleComplete cfg now false s = { s with entriesSuppressed := false } := by
          rw [hstep1, if_pos hB]
        refine ⟨?_, ?_, fun _ => hstep, ?_⟩
        · constructor
          · rintro ⟨hdeg, -⟩
            rw [hB.1] at hdeg
            exact absurd hdeg (by simp)
          · rintro ⟨-, hdeg, hrl, hrec⟩
            exact absurd ⟨hdeg, hrl, hrec⟩ hA
        · rintro ⟨-, hdeg, hrl, hrec⟩
          exact absurd ⟨hdeg, hrl, hrec⟩ hA
        · intro _ hcon
          exact absurd ⟨rfl, hB.1, hB.2.1, hB.2.2⟩ hcon
      · have hstep : onCycleComplete cfg now false s = s := by
          rw [hstep1, if_neg hB]
        refine ⟨?_, ?_, ?_, fun _ _ => hstep⟩
        · constructor
          · rintro ⟨hdeg, hnorm⟩
            rw [hstep] at hnorm
            rw [hdeg] at hnorm
            exact absurd hnorm (by simp)
          · rintro ⟨-, hdeg, hrl, hrec⟩
            exact absurd ⟨hdeg, hrl, hrec⟩ hA
        · rintro ⟨-, hdeg, hrl, hrec⟩
          exact absurd ⟨hdeg, hrl, hrec⟩ hA
        · rintro ⟨-, hnorm, hsup, hrl⟩
          exact absurd ⟨hnorm, hsup, hrl⟩ hB

/-- Witness for claim C6: the theorem applied at a concrete state that is
degraded with an elapsed recovery window, and at a concrete normal state
with stale suppression. -/
theorem claim_C6_witness :
    (onCycleComplete ⟨1000, 30000, 60000⟩ 70000 false
        { state := RLState.degraded, pausedUntil := none, lastCycleAt := 0,
          lastRateLimitAt := 1, entriesSuppressed := true } =
      { state := RLState.normal, pausedUntil := none, lastCycleAt := 0,
        lastRateLimitAt := 0, entriesSuppressed := false }) ∧
    (onCycleComplete ⟨1000, 30000, 60000⟩ 70000 false
        { state := RLState.normal, pausedUntil := none, lastCycleAt := 0,
          lastRateLimitAt := 0, entriesSuppressed := true } =
      { state := RLState.normal, pausedUntil := none, lastCycleAt := 0,
        lastRateLimitAt := 0, entriesSuppressed := false }) := by
  constructor
  · exact (claim_C6 ⟨1000, 30000, 60000⟩
      { state := RLState.degraded, pausedUntil := none, lastCycleAt := 0,
        lastRateLimitAt := 1, entriesSuppressed := true } 70000 false).2.1
      ⟨rfl, rfl, by norm_num, by norm_num⟩
  · exact (claim_C6 ⟨1000, 30000, 60000⟩
      { state := RLState.normal, pausedUntil := none, lastCycleAt := 0,
        lastRateLimitAt := 0, entriesSuppressed := true } 70000 false).2.2.1
      ⟨rfl, rfl, rfl, rfl⟩

/-- Claim C2: with an open position (absolute position amount at least
EPS = 1e-5), the depth-imbalance stop-loss check invokes the market exit
exactly when the position PnL computed from the current top-of-book is at
most minus the loss limit; a PnL of exactly minus the loss limit
triggers the exit. -/
theorem claim_C2 (lossLimit positionAmt pnl : ℚ) (h : EPS ≤ |positionAmt|) :
    (checkStopLoss lossLimit positionAmt pnl = true ↔ pnl ≤ -lossLimit) ∧
    checkStopLoss lossLimit positionAmt (-lossLimit) = true := by
  have hn : ¬ |positionAmt| < EPS := not_lt.mpr h
  constructor
  · simp [checkStopLoss, hn]
  · simp [checkStopLoss, hn]

/-- Witness for claim C2: a long position of 1 with loss limit 0.03 and a
PnL exactly at the boundary −0.03 triggers the exit, while −0.029 does
not. -/
theorem claim_C2_witness :
    checkStopLoss (3/100) 1 (-(3/100)) = true ∧
    checkStopLoss (3/100) 1 (-(29/1000)) = false := by
  have h : EPS ≤ |(1 : ℚ)| := by norm_num [EPS]
  constructor
  · exact (claim_C2 (3/100) 1 (-(3/100)) h).2
  · have hiff := (claim_C2 (3/100) 1 (-(29/1000)) h).1
    rw [Bool.eq_false_iff]
    intro htrue
    have := hiff.mp htrue
    norm_num at this

/-- Claim C4: on a symmetric-maker tick with both top-of-book sides
present, a flat position with entries unblocked yields exactly the two
non-reduce-only quotes (BUY at the tick-rounded bid minus offset, SELL at
the tick-rounded ask plus offset, each for the fixed trade amount); a flat
position with entries blocked yields no desired orders; a long position
yields exactly one reduce-only SELL for the full absolute amount and a
short position one reduce-only BUY. -/
theorem claim_C4 (bidOffset askOffset priceTick tradeAmount : ℚ) (rl : RateLimit.St)
    (topBid topAsk positionAmt : ℚ) :
    (|positionAmt| < EPS → RateLimit.shouldBlockEntries rl = false →
      tickDesiredOrders bidOffset askOffset priceTick tradeAmount rl topBid topAsk positionAmt =
        [{ side := Side.BUY, price := roundDownToTick (topBid - bidOffset) priceTick,
            amount := tradeAmount, reduceOnly := false },
         { side := Side.SELL, price := roundDownToTick (topAsk + askOffset) priceTick,
            amount := tradeAmount, reduceOnly := false }]) ∧
    (|positionAmt| < EPS → RateLimit.shouldBlockEntries rl = true →
      tickDesiredOrders bidOffset askOffset priceTick tradeAmount rl topBid topAsk positionAmt
        = []) ∧
    (EPS ≤ positionAmt →
      tickDesiredOrders bidOffset askOffset priceTick tradeAmount rl topBid topAsk positionAmt =
        [{ side := Side.SELL, price := roundDownToTick (topAsk + askOffset) priceTick,
            amount := positionAmt, reduceOnly := true }]) ∧
    (positionAmt ≤ -EPS →
      tickDesiredOrders bidOffset askOffset priceTick tradeAmount rl topBid topAsk positionAmt =
        [{ side := Side.BUY, price := roundDownToTick (topBid - bidOffset) priceTick,
            amount := -positionAmt, reduceOnly := true }]) := by
  refine ⟨?_, ?_, ?_, ?_⟩
  · intro hflat hblock
    simp [tickDesiredOrders, hflat, hblock]
  · intro hflat hblock
    simp [tickDesiredOrders, hflat, hblock]
  · intro hpos
    have h0 : 0 < positionAmt := lt_of_lt_of_le (by norm_num [EPS]) hpos
    have habs : |positionAmt| = positionAmt := abs_of_pos h0
    have hnot : ¬ positionAmt < EPS := not_lt.mpr hpos
    simp [tickDesiredOrders, habs, hnot, h0]
  · intro hneg
    have h0 : positionAmt < 0 := lt_of_le_of_lt hneg (by norm_num [EPS])
    have habs : |positionAmt| = -positionAmt := abs_of_neg h0
    have hnot : ¬ -positionAmt < EPS := not_lt.mpr (by linarith)
    simp [tickDesiredOrders, habs, hnot, not_lt.mpr (le_of_lt h0)]

/-- Witness for claim C4: the spec example topBid = 100.00,
topAsk = 100.20, zero offsets, price tick 0.1 on a flat, unblocked
engine produces a BUY at 100.0 and a SELL at 100.2. -/
theorem claim_C4_witness :
    tickDesiredOrders 0 0 (1/10) (3/1000) RateLimit.initialSt 100 (501/5) 0 =
      [{ side := Side.BUY, price := 100, amount := 3/1000, reduceOnly := false },
       { side := Side.SELL, price := 501/5, amount := 3/1000, reduceOnly := false }] := by
  have h := (claim_C4 0 0 (1/10) (3/1000) RateLimit.initialSt 100 (501/5) 0).1
    (by norm_num [EPS]) (by decide)
  rw [h]
  norm_num [roundDownToTick, Rat.floor]

/-- Claim C5: with a flat position and positive first-level quantities,
the depth-imbalance engine submits a market entry exactly when at least
one first-level quantity reaches minDepthQty and the larger-to-smaller
quantity quotient reaches the configured imbalance multiple; the entry is
a BUY when bids dominate and a SELL when asks dominate, always for the
configured trade amount; in particular bidQty = 50, askQty = 500 with
minDepthQty = 100 and multiple 6 enters a SELL. -/
theorem claim_C5 (minDepthQty imbalanceFactor tradeAmount positionAmt bidQty askQty : ℚ)
    (hflat : |positionAmt| < EPS) (hb : 0 < bidQty) (ha : 0 < askQty) :
    ((tickEntryDecision minDepthQty imbalanceFactor tradeAmount positionAmt bidQty
        askQty).isSome = true ↔
      ((minDepthQty ≤ bidQty ∨ minDepthQty ≤ askQty) ∧
        imbalanceFactor ≤ max bidQty askQty / min bidQty askQty)) ∧
    ((minDepthQty ≤ bidQty ∨ minDepthQty ≤ askQty) →
      imbalanceFactor ≤ max bidQty askQty / min bidQty askQty →
      askQty < bidQty →
      tickEntryDecision minDepthQty imbalanceFactor tradeAmount positionAmt bidQty askQty =
        some (Side.BUY, tradeAmount)) ∧
    ((minDepthQty ≤ bidQty ∨ minDepthQty ≤ askQty) →
      imbalanceFactor ≤ max bidQty askQty / min bidQty askQty →
      bidQty < askQty →
      tickEntryDecision minDepthQty imbalanceFactor tradeAmount positionAmt bidQty askQty =
        some (Side.SELL, tradeAmount)) ∧
    (∀ amount amt : ℚ, |amt| < EPS →
      tickEntryDecision 100 6 amount amt 50 500 = some (Side.SELL, amount)) := by
  have h1 : ¬(bidQty ≤ 0 ∨ askQty ≤ 0) := by
    push_neg
    exact ⟨hb, ha⟩
  have hstep : tickEntryDecision minDepthQty imbalanceFactor tradeAmount positionAmt bidQty askQty
      = checkEntryCondition minDepthQty imbalanceFactor tradeAmount bidQty askQty := by
    simp [tickEntryDecision, h1, hflat]
  refine ⟨?_, ?_, ?_, ?_⟩
  · rw [hstep]
    unfold checkEntryCondition
    by_cases hc1 : bidQty < minDepthQty ∧ askQty < minDepthQty
    · rw [if_pos hc1]
      simp [not_le.mpr hc1.1, not_le.mpr hc1.2]
    · rw [if_neg hc1]
      have hc1' : minDepthQty ≤ bidQty ∨ minDepthQty ≤ askQty := by
        rcases not_and_or.mp hc1 with h | h
        · exact Or.inl (not_lt.mp h)
        · exact Or.inr (not_lt.mp h)
      by_cases hc2 : max bidQty askQty / min bidQty askQty < imbalanceFactor
      · rw [if_pos hc2]
        simp [not_le.mpr hc2]
      · rw [if_neg hc2]
        simp [hc1', not_lt.mp hc2]
  · intro hor hratio hba
    rw [hstep]
    unfold checkEntryCondition
    rw [if_neg ?_, if_neg (not_lt.mpr hratio), if_pos hba]
    rintro ⟨hb1, ha1⟩
    rcases hor with h | h
    · exact absurd h (not_le.mpr hb1)
    · exact absurd h (not_le.mpr ha1)
  · intro hor hratio hab
    rw [hstep]
    unfold checkEntryCondition
    rw [if_neg ?_, if_neg (not_lt.mpr hratio), if_neg (lt_asymm hab)]
    rintro ⟨hb1, ha1⟩
    rcases hor with h | h
    · exact absurd h (not_le.mpr hb1)
    · exact absurd h (not_le.mpr ha1)
  · intro amount amt hamt
    norm_num [tickEntryDecision, checkEntryCondition, hamt]

/-- Witness for claim C5: the spec example bidQty = 50, askQty = 500 with
minDepthQty = 100 and imbalance multiple 6 on a flat engine enters a SELL
for the configured amount. -/
theorem claim_C5_witness :
    tickEntryDecision 100 6 (3/1000) 0 50 500 = some (Side.SELL, 3/1000) := by
  exact (claim_C5 100 6 (3/1000) 0 50 500 (by norm_num [EPS]) (by norm_num)
    (by norm_num)).2.2.2 (3/1000) 0 (by norm_num [EPS])

/-- Claim C7: order-planner idempotence — when every desired entry has a
matching open order (same side and reduce-only flag, price within the
tolerance) and every open order has such a matching desired entry, the
planner emits an empty cancel-set and an empty place-set. -/
theorem claim_C7 (tolerance : ℚ) (openOrders : List OpenOrder) (targets : List DesiredOrder)
    (hplace : ∀ d ∈ targets, ∃ o ∈ openOrders, satisfies tolerance o d = true)
    (hcancel : ∀ o ∈ openOrders, ∃ d ∈ targets, satisfies tolerance o d = true) :
    makeOrderPlan openOrders targets tolerance = ([], []) := by
  simp only [makeOrderPlan, Prod.mk.injEq]
  constructor
  · rw [List.filter_eq_nil_iff]
    intro o ho
    obtain ⟨d, hd, hsat⟩ := hcancel o ho
    simp only [Bool.not_eq_true', Bool.not_eq_false, List.any_eq_true]
    exact ⟨d, hd, hsat⟩
  · rw [List.filter_eq_nil_iff]
    intro d hd
    obtain ⟨o, ho, hsat⟩ := hplace d hd
    simp only [Bool.not_eq_true', Bool.not_eq_false, List.any_eq_true]
    exact ⟨o, ho, hsat⟩

/-- Witness for claim C7: one open BUY at 100.05 and one open reduce-only
SELL at 100.28 satisfy a desired BUY at 100.0 and reduce-only SELL at
100.3 within tolerance 0.3, so the plan is empty. -/
theorem claim_C7_witness :
    makeOrderPlan
      [{ orderId := 1, side := Side.BUY, price := 2001/20, reduceOnly := false },
       { orderId := 2, side := Side.SELL, price := 2507/25, reduceOnly := true }]
      [{ side := Side.BUY, price := 100, amount := 3/1000, reduceOnly := false },
       { side := Side.SELL, price := 1003/10, amount := 3/1000, reduceOnly := true }]
      (3/10) = ([], []) := by
  apply claim_C7
  · intro d hd
    simp only [List.mem_cons, List.mem_singleton, List.not_mem_nil] at hd
    rcases hd with h | h | h
    · exact ⟨{ orderId := 1, side := Side.BUY, price := 2001/20, reduceOnly := false },
        by simp, by rw [h]; norm_num [satisfies, abs_le]⟩
    · exact ⟨{ orderId := 2, side := Side.SELL, price := 2507/25, reduceOnly := true },
        by simp, by rw [h]; norm_num [satisfies, abs_le]⟩
    · exact absurd h (by simp)
  · intro o ho
    simp only [List.mem_cons, List.mem_singleton, List.not_mem_nil] at ho
    rcases ho with h | h | h
    · exact ⟨{ side := Side.BUY, price := 100, amount := 3/1000, reduceOnly := false },
        by simp, by rw [h]; norm_num [satisfies, abs_le]⟩
    · exact ⟨{ side := Side.SELL, price := 1003/10, amount := 3/1000, reduceOnly := true },
        by simp, by rw [h]; norm_num [satisfies, abs_le]⟩
    · exact absurd h (by simp)

/-- Claim C8: a snapshot read resets the hourly stats (zeroing all six
trading fields and starting a fresh window, after exporting the pre-reset
values) exactly when at least one hour has elapsed since hourStartTime,
and the total stats record is never modified by a snapshot read. -/
theorem claim_C8 (now : ℤ) (total : TradingStats) (hourly : HourlyStats) :
    ((getSnapshotStats now total hourly).2.2.isSome = true ↔
      oneHour ≤ now - hourly.hourStartTime) ∧
    ((getSnapshotStats now total hourly).1 = total) ∧
    (oneHour ≤ now - hourly.hourStartTime →
      (getSnapshotStats now total hourly).2.1 =
        { makerOrderCount := 0, takerOrderCount := 0, totalFees := 0, totalPnl := 0,
          totalVolume := 0, pointsRate := 0, startTime := hourly.startTime,
          hourStartTime := now } ∧
      (getSnapshotStats now total hourly).2.2 = some hourly) ∧
    (now - hourly.hourStartTime < oneHour →
      (getSnapshotStats now total hourly).2.1 = hourly ∧
      (getSnapshotStats now total hourly).2.2 = none) := by
  by_cases hr : oneHour ≤ now - hourly.hourStartTime
  · have hb : shouldResetHourlyStats now hourly = true := by
      simp [shouldResetHourlyStats, hr]
    refine ⟨?_, ?_, ?_, ?_⟩
    · simp [getSnapshotStats, hb, hr]
    · simp [getSnapshotStats, hb]
    · intro _
      constructor
      · simp [getSnapshotStats, hb, resetHourlyStats]
      · simp [getSnapshotStats, hb]
    · intro hlt
      exact absurd hr (not_le.mpr hlt)
  · have hb : shouldResetHourlyStats now hourly = false := by
      simp [shouldResetHourlyStats, hr]
    refine ⟨?_, ?_, ?_, ?_⟩
    · simp [getSnapshotStats, hb, hr]
    · simp [getSnapshotStats, hb]
    · intro h
      exact absurd h hr
    · intro _
      constructor
      · simp [getSnapshotStats, hb]
      · simp [getSnapshotStats, hb]

/-- Witness for claim C8: the spec example.  With the window started
3 599 999 ms ago no reset happens; with the window started 3 600 001 ms
ago the read exports the old values and returns zeroed hourly stats with
a fresh window start, leaving the total record untouched. -/
theorem claim_C8_witness :
    (getSnapshotStats 3600001
        { makerOrderCount := 4, takerOrderCount := 1, totalFees := 2, totalPnl := -1,
          totalVolume := 9, pointsRate := 7, startTime := 0 }
        { makerOrderCount := 3, takerOrderCount := 2, totalFees := 1, totalPnl := 5,
          totalVolume := 8, pointsRate := 6, startTime := 0, hourStartTime := 2 }).2.1 =
      { makerOrderCount := 3, takerOrderCount := 2, totalFees := 1, totalPnl := 5,
        totalVolume := 8, pointsRate := 6, startTime := 0, hourStartTime := 2 } ∧
    (getSnapshotStats 3600001
        { makerOrderCount := 4, takerOrderCount := 1, totalFees := 2, totalPnl := -1,
          totalVolume := 9, pointsRate := 7, startTime := 0 }
        { makerOrderCount := 3, takerOrderCount := 2, totalFees := 1, totalPnl := 5,
          totalVolume := 8, pointsRate := 6, startTime := 0, hourStartTime := 0 }).2.1 =
      { makerOrderCount := 0, takerOrderCount := 0, totalFees := 0, totalPnl := 0,
        totalVolume := 0, pointsRate := 0, startTime := 0, hourStartTime := 3600001 } ∧
    (getSnapshotStats 3600001
        { makerOrderCount := 4, takerOrderCount := 1, totalFees := 2, totalPnl := -1,
          totalVolume := 9, pointsRate := 7, startTime := 0 }
        { makerOrderCount := 3, takerOrderCount := 2, totalFees := 1, totalPnl := 5,
          totalVolume := 8, pointsRate := 6, startTime := 0, hourStartTime := 0 }).1 =
      { makerOrderCount := 4, takerOrderCount := 1, totalFees := 2, totalPnl := -1,
        totalVolume := 9, pointsRate := 7, startTime := 0 } := by
  refine ⟨((claim_C8 3600001
      { makerOrderCount := 4, takerOrderCount := 1, totalFees := 2, totalPnl := -1,
        totalVolume := 9, pointsRate := 7, startTime := 0 }
      { makerOrderCount := 3, takerOrderCount := 2, totalFees := 1, totalPnl := 5,
        totalVolume := 8, pointsRate := 6, startTime := 0,
        hourStartTime := 2 }).2.2.2 (by norm_num [oneHour])).1,
    ((claim_C8 3600001
      { makerOrderCount := 4, takerOrderCount := 1, totalFees := 2, totalPnl := -1,
        totalVolume := 9, pointsRate := 7, startTime := 0 }
      { makerOrderCount := 3, takerOrderCount := 2, totalFees := 1, totalPnl := 5,
        totalVolume := 8, pointsRate := 6, startTime := 0,
        hourStartTime := 0 }).2.2.1 (by norm_num [oneHour])).1,
    (claim_C8 3600001
      { makerOrderCount := 4, takerOrderCount := 1, totalFees := 2, totalPnl := -1,
        totalVolume := 9, pointsRate := 7, startTime := 0 }
      { makerOrderCount := 3, takerOrderCount := 2, totalFees := 1, totalPnl := 5,
        totalVolume := 8, pointsRate := 6, startTime := 0, hourStartTime := 0 }).2.1⟩

/-- Claim C9: the two calculatePointsRate implementations in the source
(the team-bonus-adjusted one, here at its default bonus 1.1, and the
unadjusted one) are not extensionally equal: they differ on an input with
positive volume. -/
theorem claim_C9 :
    ∃ fees pnl volume : ℚ, 0 < volume ∧
      calculatePointsRateTeamBonus (11/10) fees pnl volume ≠
        calculatePointsRatePlain fees pnl volume := by
  refine ⟨1, 0, 1, by norm_num, ?_⟩
  norm_num [calculatePointsRateTeamBonus, calculatePointsRatePlain]

/-- Claim C10: a trade-execution event for a different symbol than the
engine's configured one leaves the entire trading-statistics summary
(total and hourly records, all fields) unchanged. -/
theorem claim_C10 (cfgSymbol : String) (s : TradingStatsSummary) (td : TradeExecutionData)
    (h : td.symbol ≠ cfgSymbol) : onTradeEvent cfgSymbol s td = s := by
  simp [onTradeEvent, h]

/-- Witness for claim C10: an ETHUSDT trade pushed to a BTCUSDT engine
leaves its statistics summary unchanged. -/
theorem claim_C10_witness :
    onTradeEvent "BTCUSDT"
      { total :=
          { makerOrderCount := 4, takerOrderCount := 1, totalFees := 2, totalPnl := -1,
            totalVolume := 9, pointsRate := 7, startTime := 0 },
        hourly :=
          { makerOrderCount := 3, takerOrderCount := 2, totalFees := 1, totalPnl := 5,
            totalVolume := 8, pointsRate := 6, startTime := 0, hourStartTime := 2 } }
      { symbol := "ETHUSDT", orderId := 10, tradeId := 11, price := 2000, qty := 1,
        quoteQty := 2000, commission := 1/10, isMaker := true, realizedPnl := 3,
        timestamp := 5 } =
      { total :=
          { makerOrderCount := 4, takerOrderCount := 1, totalFees := 2, totalPnl := -1,
            totalVolume := 9, pointsRate := 7, startTime := 0 },
        hourly :=
          { makerOrderCount := 3, takerOrderCount := 2, totalFees := 1, totalPnl := 5,
            totalVolume := 8, pointsRate := 6, startTime := 0, hourStartTime := 2 } } := by
  exact claim_C10 "BTCUSDT" _ _ (by decide)

/-- Unrolling lemma for the marketEntry retry loop: a block of k
insufficient-margin rejections halves the attempted amount and the loss
limit k times, recording each attempted amount, provided every
intermediate step passes the retry guard. -/
theorem marketEntryGo_margins (minAmt : ℚ) (maxAttempts : ℕ) :
    ∀ (k : ℕ) (amt L : ℚ) (attempts : ℕ) (rest : List EntryOutcome),
      attempts < maxAttempts →
      minAmt ≤ amt →
      (∀ i : ℕ, i < k → attempts + i + 1 < maxAttempts ∧ minAmt ≤ amt / 2 ^ (i + 1)) →
      marketEntryGo minAmt maxAttempts amt L attempts
          (List.replicate k EntryOutcome.marginError ++ rest) =
        ((List.range k).map (fun i => amt / 2 ^ i) ++
            (marketEntryGo minAmt maxAttempts (amt / 2 ^ k) (L / 2 ^ k) (attempts + k) rest).1,
          (marketEntryGo minAmt maxAttempts (amt / 2 ^ k) (L / 2 ^ k) (attempts + k) rest).2) := by
  intro k
  induction k with
  | zero =>
    intro amt L attempts rest _ _ _
    simp
  | succ k ih =>
    intro amt L attempts rest hlt hge hcond
    have hcont : attempts + 1 < maxAttempts ∧ minAmt ≤ amt / 2 := by
      have h0 := hcond 0 (Nat.succ_pos k)
      constructor
      · omega
      · have := h0.2
        rw [pow_one] at this
        exact this
    have hshift : ∀ i : ℕ, i < k →
        attempts + 1 + i + 1 < maxAttempts ∧ minAmt ≤ amt / 2 / 2 ^ (i + 1) := by
      intro i hi
      have h1 := hcond (i + 1) (by omega)
      constructor
      · omega
      · have := h1.2
        rw [div_div, ← pow_succ']
        exact this
    have IH := ih (amt / 2) (L / 2) (attempts + 1) rest hcont.1 hcont.2 hshift
    rw [List.replicate_succ, List.cons_append]
    conv_lhs => rw [marketEntryGo]
    rw [if_pos hlt, if_neg (not_lt.mpr hge), if_pos hcont]
    dsimp only
    rw [IH]
    have hdiv : ∀ i : ℕ, amt / 2 / 2 ^ i = amt / 2 ^ (i + 1) := by
      intro i
      rw [div_div, ← pow_succ']
    have hdivL : ∀ i : ℕ, L / 2 / 2 ^ i = L / 2 ^ (i + 1) := by
      intro i
      rw [div_div, ← pow_succ']
    rw [Prod.mk.injEq]
    constructor
    · rw [hdiv k, hdivL k, show attempts + 1 + k = attempts + (k + 1) from by omega]
      simp only [List.range_succ_eq_map, List.map_cons, List.map_map, pow_zero, div_one,
        List.cons_append]
      rw [show (fun i => amt / 2 / 2 ^ i) = ((fun i => amt / 2 ^ i) ∘ Nat.succ) from
        funext fun i => by rw [hdiv i]; rfl]
    · rw [hdiv k, hdivL k, show attempts + 1 + k = attempts + (k + 1) from by omega]

/-- Length bound for the marketEntry retry loop: the number of createOrder
calls never exceeds the remaining attempt budget. -/
theorem marketEntryGo_length_le (minAmt : ℚ) (maxAttempts : ℕ) :
    ∀ (outcomes : List EntryOutcome) (amt L : ℚ) (attempts : ℕ),
      (marketEntryGo minAmt maxAttempts amt L attempts outcomes).1.length ≤
        maxAttempts - attempts := by
  intro outcomes
  induction outcomes with
  | nil =>
    intro amt L attempts
    unfold marketEntryGo
    split_ifs <;> simp
  | cons o rest ih =>
    intro amt L attempts
    cases o with
    | success =>
      unfold marketEntryGo
      split_ifs with h1 h2 <;> (simp; try omega)
    | otherError =>
      unfold marketEntryGo
      split_ifs with h1 h2 <;> (simp; try omega)
    | marginError =>
      unfold marketEntryGo
      by_cases h1 : attempts < maxAttempts
      · rw [if_pos h1]
        by_cases h2 : amt < minAmt
        · simp [h2]
        · rw [if_neg h2]
          by_cases h3 : attempts + 1 < maxAttempts ∧ minAmt ≤ amt / 2
          · rw [if_pos h3]
            have hrec := ih (amt / 2) (L / 2) (attempts + 1)
            dsimp only
            simp only [List.length_cons]
            omega
          · rw [if_neg h3]
            simp
            omega
      · rw [if_neg h1]
        simp

/-- Claim C3: starting a depth-imbalance market entry with amount A > 0,
after k consecutive insufficient-margin rejections (k ≤ 7) the next
attempted amount is A / 2^k and the active stop-loss threshold has been
halved to L / 2^k; after 8 rejections the halved amount falls below the
floor A / 128 and the entry aborts with the margin error instead of
retrying; a non-margin error aborts immediately after the block of
rejections; and no outcome script ever causes more than 10 createOrder
attempts. -/
theorem claim_C3 (A L : ℚ) (hA : 0 < A) :
    (∀ k : ℕ, k ≤ 7 → ∀ rest : List EntryOutcome,
      marketEntry A L (List.replicate k EntryOutcome.marginError ++
          EntryOutcome.success :: rest) =
        ((List.range (k + 1)).map (fun i => A / 2 ^ i),
          EntryResult.ok (A / 2 ^ k) (L / 2 ^ k))) ∧
    (marketEntry A L (List.replicate 8 EntryOutcome.marginError) =
      ((List.range 8).map (fun i => A / 2 ^ i), EntryResult.errMargin (L / 2 ^ 8))) ∧
    (∀ k : ℕ, k ≤ 7 → ∀ rest : List EntryOutcome,
      marketEntry A L (List.replicate k EntryOutcome.marginError ++
          EntryOutcome.otherError :: rest) =
        ((List.range (k + 1)).map (fun i => A / 2 ^ i),
          EntryResult.errOther (L / 2 ^ k))) ∧
    (∀ outcomes : List EntryOutcome, (marketEntry A L outcomes).1.length ≤ 10) := by
  have hfloor : ∀ j : ℕ, j ≤ 7 → A / 128 ≤ A / 2 ^ j := by
    intro j hj
    have h2 : (2:ℚ) ^ j ≤ 128 := by
      calc (2:ℚ) ^ j ≤ 2 ^ 7 := by
            apply pow_le_pow_right₀ (by norm_num) hj
        _ = 128 := by norm_num
    exact div_le_div_of_nonneg_left hA.le (by positivity) h2
  have hAmin : A / 128 ≤ A := hfloor 0 (by norm_num) |>.trans_eq (by norm_num)
  refine ⟨?_, ?_, ?_, ?_⟩
  · intro k hk rest
    unfold marketEntry
    rw [marketEntryGo_margins (A / 128) 10 k A L 0 (EntryOutcome.success :: rest)
      (by norm_num) hAmin (fun i hi => ⟨by omega, hfloor (i + 1) (by omega)⟩)]
    rw [show marketEntryGo (A / 128) 10 (A / 2 ^ k) (L / 2 ^ k) (0 + k)
        (EntryOutcome.success :: rest) =
        ([A / 2 ^ k], EntryResult.ok (A / 2 ^ k) (L / 2 ^ k)) from by
      unfold marketEntryGo
      rw [if_pos (by omega), if_neg (not_lt.mpr (hfloor k hk))]]
    rw [List.range_succ, List.map_append]
    simp
  · unfold marketEntry
    rw [show (List.replicate 8 EntryOutcome.marginError) =
        List.replicate 7 EntryOutcome.marginError ++ [EntryOutcome.marginError] from by
      rw [← List.replicate_succ']]
    rw [marketEntryGo_margins (A / 128) 10 7 A L 0 [EntryOutcome.marginError]
      (by norm_num) hAmin (fun i hi => ⟨by omega, hfloor (i + 1) (by omega)⟩)]
    rw [show marketEntryGo (A / 128) 10 (A / 2 ^ 7) (L / 2 ^ 7) (0 + 7)
        [EntryOutcome.marginError] =
        ([A / 2 ^ 7], EntryResult.errMargin (L / 2 ^ 7 / 2)) from by
      unfold marketEntryGo
      rw [if_pos (by omega), if_neg (not_lt.mpr (hfloor 7 (by norm_num)))]
      rw [if_neg ?_]
      rintro ⟨-, hc⟩
      have hlt : A / 2 ^ 7 / 2 < A / 128 := by
        rw [div_div, show ((2:ℚ) ^ 7 * 2) = 256 from by norm_num]
        exact div_lt_div_of_pos_left hA (by norm_num) (by norm_num)
      exact absurd hc (not_le.mpr hlt)]
    rw [div_div, show ((2:ℚ) ^ 7 * 2) = 2 ^ 8 from by norm_num]
    simp [List.range_succ]
  · intro k hk rest
    unfold marketEntry
    rw [marketEntryGo_margins (A / 128) 10 k A L 0 (EntryOutcome.otherError :: rest)
      (by norm_num) hAmin (fun i hi => ⟨by omega, hfloor (i + 1) (by omega)⟩)]
    rw [show marketEntryGo (A / 128) 10 (A / 2 ^ k) (L / 2 ^ k) (0 + k)
        (EntryOutcome.otherError :: rest) =
        ([A / 2 ^ k], EntryResult.errOther (L / 2 ^ k)) from by
      unfold marketEntryGo
      rw [if_pos (by omega), if_neg (not_lt.mpr (hfloor k hk))]]
    rw [List.range_succ, List.map_append]
    simp
  · intro outcomes
    exact (marketEntryGo_length_le (A / 128) 10 outcomes A L 0).trans (by norm_num)

/-- Witness for claim C3: two margin rejections starting from amount 128
with loss limit 1 attempt 128, 64 and then succeed at 32 with the loss
limit halved twice to 1/4. -/
theorem claim_C3_witness :
    marketEntry 128 1
      [EntryOutcome.marginError, EntryOutcome.marginError, EntryOutcome.success] =
      ([128, 64, 32], EntryResult.ok 32 (1/4)) := by
  have h := (claim_C3 128 1 (by norm_num)).1 2 (by norm_num) []
  rw [show List.replicate 2 EntryOutcome.marginError ++ [EntryOutcome.success] =
      [EntryOutcome.marginError, EntryOutcome.marginError, EntryOutcome.success] from rfl] at h
  rw [h]
  norm_num [List.range_succ]

end RitmexBot
